import Mathlib

/-!
Verification of the arxiv_to_mail pipeline.

This file gives a shallow embedding of the paper-discovery and delivery core of
the repository and proves the specified properties about it.  Pure Python
functions become Lean functions on `List Char` / `String`; machine effects
(HTTP fetches, feed parsing, `strptime`, `html.unescape`, the LLM call, the
filesystem, the mail and chat clients) are modelled as explicit oracle
parameters, with `Option`/`Except` encoding a raised exception.  Timestamps
(`datetime` values, naive local time) are modelled as `Int` seconds, so
`timedelta(days = d)` is `86400 * d` and datetime comparison is integer
comparison.
-/

/-- Characters removed by Python `str.strip()` (the ASCII whitespace set; the
additional Unicode spaces Python also strips are irrelevant to the feeds). -/
def isPySpace (c : Char) : Bool :=
  c = ' ' || c = '\t' || c = '\n' || c = '\r' || c = '\x0b' || c = '\x0c'

/-- Python `s.strip()` on a character list: drop leading and trailing whitespace. -/
def pyStrip (l : List Char) : List Char :=
  ((l.dropWhile isPySpace).reverse.dropWhile isPySpace).reverse

/-- Python `s.strip()` on strings. -/
def pyStripS (s : String) : String := String.mk (pyStrip s.data)

/-- Python `s.replace('\n', ' ')`. -/
def replaceNL (l : List Char) : List Char :=
  l.map (fun c => if c = '\n' then ' ' else c)

/-- Python `s.replace('  ', ' ')`: a single left-to-right pass replacing
non-overlapping occurrences of two spaces by one space; the inserted
replacement is not rescanned. -/
def collapseOnce : List Char → List Char
  | [] => []
  | [c] => [c]
  | c₁ :: c₂ :: rest =>
    if c₁ = ' ' ∧ c₂ = ' ' then ' ' :: collapseOnce rest
    else c₁ :: collapseOnce (c₂ :: rest)

/-- The title/abstract cleanup chain used by both adapters:
`s.replace('\n', ' ').replace('  ', ' ').strip()`. -/
def normalizeWS (s : String) : String :=
  String.mk (pyStrip (collapseOnce (replaceNL s.data)))

/-- Python `s.lower()` (ASCII case folding; the feeds are ASCII). -/
def pyLower (s : String) : String := String.mk (s.data.map Char.toLower)

/-- Characters after the first occurrence of `pat`
(Python `s.split(pat, 1)[1]`); `none` when `pat` does not occur. -/
def afterSub (pat : List Char) : List Char → Option (List Char)
  | [] => if pat = [] then some [] else none
  | c :: rest =>
    if pat.isPrefixOf (c :: rest) then some ((c :: rest).drop pat.length)
    else afterSub pat rest

/-- Python substring containment `pat in s`. -/
def containsSub (pat s : List Char) : Bool := (afterSub pat s).isSome

/-- Python substring containment on strings. -/
def containsStr (pat s : String) : Bool := containsSub pat.data s.data

/-- Characters before the first occurrence of `pat`
(Python `s.split(pat, 1)[0]`); the whole input when `pat` does not occur. -/
def beforeSub (pat : List Char) : List Char → List Char
  | [] => []
  | c :: rest =>
    if pat.isPrefixOf (c :: rest) then []
    else c :: beforeSub pat rest

/-- Python `s.split(sep)[-1]` for a one-character separator: the characters
after the last occurrence of `sep`, the whole input when `sep` is absent. -/
def afterLastChar (sep : Char) (l : List Char) : List Char :=
  (l.reverse.takeWhile (fun c => c ≠ sep)).reverse

/-- Python `re.sub(r"v\d+$", "", s)`: remove a trailing `v` followed by one or
more decimal digits. -/
def stripVN (l : List Char) : List Char :=
  let r := l.reverse
  let ds := r.takeWhile Char.isDigit
  if ds ≠ [] ∧ (r.drop ds.length).head? = some 'v' then (r.drop (ds.length + 1)).reverse
  else l

/-- Python `re.split(r",| and ", s)`: split at every left-to-right
non-overlapping match of a comma or of the five characters `" and "`. -/
def reSplitAuthors : List Char → List (List Char)
  | [] => [[]]
  | ',' :: rest => [] :: reSplitAuthors rest
  | ' ' :: 'a' :: 'n' :: 'd' :: ' ' :: rest => [] :: reSplitAuthors rest
  | c :: rest =>
    match reSplitAuthors rest with
    | [] => [[c]]
    | h :: t => (c :: h) :: t

/-- The canonical paper record produced by both adapters
(the dict built by `extract_paper_info`). -/
structure Paper where
  arxiv_id : String
  title : String
  abstract : String
  authors : List String
  published_date : Int
  categories : List String
  arxiv_url : String
  pdf_url : String
deriving DecidableEq, Repr

/-- Stable insertion used to model Python `list.sort(key = published_date,
reverse = True)`: the element is placed before the first entry whose date is
less than or equal to its own, so equal dates keep their original order.
Python's sort is stable, and a stable descending sort by a total key is
uniquely determined, so this reproduces it exactly. -/
def insertDesc (p : Paper) : List Paper → List Paper
  | [] => [p]
  | q :: rest =>
    if q.published_date ≤ p.published_date then p :: q :: rest
    else q :: insertDesc p rest

/-- `papers.sort(key = lambda x: x['published_date'], reverse = True)`. -/
def sortByDateDesc (l : List Paper) : List Paper := l.foldr insertDesc []

/-- Accumulator of the search loops: the papers gathered so far and the set of
arXiv ids already seen (`seen_arxiv_ids` / `seen_ids`, a Python `set`). -/
structure SearchAcc where
  papers : List Paper
  seen : List String

namespace ArxivSearcher

/-- A raw feedparser entry of the query-API response (`arxiv_search.py`).
`none` in a field models a missing attribute or an unparsable value, which
makes the corresponding Python attribute access or `strptime` raise.
`published` is the timestamp `strptime(entry.published, '%Y-%m-%dT%H:%M:%SZ')`
would produce, `none` when that parse raises. -/
structure ApiEntry where
  id : Option String
  title : Option String
  summary : Option String
  authors : Option (List String)
  author : Option String
  published : Option Int
  tags : Option (List String)
deriving DecidableEq, Repr

/-- `entry.id.split('/')[-1].split('v')[0]` — the id normalization of the
query-API adapter. -/
def extractApiId (s : String) : String :=
  String.mk (beforeSub ['v'] (afterLastChar '/' s.data))

/-- `ArxivSearcher.extract_paper_info`: build the paper dict from one entry;
`none` models the extraction raising (missing attribute / unparsable date),
which the caller catches per item. -/
def extract_paper_info (e : ApiEntry) : Option Paper :=
  match e.id, e.title, e.summary, e.published with
  | some eid, some title, some summary, some published_date =>
    let arxiv_id := extractApiId eid
    let authors :=
      match e.authors with
      | some as => as
      | none =>
        match e.author with
        | some a => [a]
        | none => []
    let categories := e.tags.getD []
    some { arxiv_id := arxiv_id,
           title := normalizeWS title,
           abstract := normalizeWS summary,
           authors := authors,
           published_date := published_date,
           categories := categories,
           arxiv_url := eid,
           pdf_url := "https://arxiv.org/pdf/" ++ arxiv_id ++ ".pdf" }
  | _, _, _, _ => none

/-- One iteration of the per-entry loop of `ArxivSearcher.search_papers`:
skip on extraction failure, skip ids already seen, then keep the entry only
when its date passes the post-filter `published_date >= cutoff_date`. -/
def searchStep (cutoff : Int) (acc : SearchAcc) (e : ApiEntry) : SearchAcc :=
  match extract_paper_info e with
  | none => acc
  | some p =>
    if p.arxiv_id ∈ acc.seen then acc
    else if cutoff ≤ p.published_date then ⟨acc.papers ++ [p], p.arxiv_id :: acc.seen⟩
    else acc

/-- The outer per-keyword loop of `ArxivSearcher.search_papers`: each keyword
is paired with the outcome of its HTTP query (`none` models the request or
the parse raising, which the per-keyword `except` swallows; `some entries`
the parsed feed), and the per-entry loop runs over the successful responses. -/
def accumulate (cutoff : Int)
    (queries : List (String × Option (List ApiEntry))) : SearchAcc :=
  queries.foldl (fun acc q =>
    match q.2 with
    | none => acc
    | some entries => entries.foldl (searchStep cutoff) acc) ⟨[], []⟩

/-- `ArxivSearcher.search_papers`.  `now` is `datetime.now()` and the cutoff
is `now - timedelta(days = days_back)`. -/
def search_papers (queries : List (String × Option (List ApiEntry)))
    (max_results : Nat) (days_back : Nat) (now : Int) : List Paper :=
  let cutoff : Int := now - 86400 * (days_back : Int)
  let all_papers := sortByDateDesc (accumulate cutoff queries).papers
  let final_res_num := max all_papers.length (max_results * queries.length)
  all_papers.take final_res_num

/-- `ArxivSearcher.search_papers` without the final `[:final_res_num]`
truncation: the accumulated, deduplicated, date-filtered list sorted by
publication date descending. -/
def search_papers_nocap (queries : List (String × Option (List ApiEntry)))
    (days_back : Nat) (now : Int) : List Paper :=
  let cutoff : Int := now - 86400 * (days_back : Int)
  sortByDateDesc (accumulate cutoff queries).papers

end ArxivSearcher

namespace ArxivRSSSearcher

/-- One element of `entry.links` (feedparser link objects). -/
structure FeedLink where
  rel : String
  href : String
deriving DecidableEq, Repr

/-- A raw feedparser entry of the CS RSS feed (`arxiv_search_rss.py`).
`published_parsed` / `updated_parsed` are `Option (Option Int)`: the outer
`none` models the attribute being absent or falsy, `some none` models
`datetime(*t[:6])` raising on a malformed tuple, `some (some v)` the obtained
timestamp. -/
structure RSSEntry where
  link : Option String
  links : List FeedLink
  id : Option String
  authors : Option (List String)
  author : Option String
  published_parsed : Option (Option Int)
  updated_parsed : Option (Option Int)
  published : Option String
  updated : Option String
  tags : Option (List String)
  title : Option String
  summary : Option String
deriving DecidableEq, Repr

/-- `ArxivRSSSearcher._extract_arxiv_id_from_link`: take the part after
`/abs/` or `/pdf/` (first matching token wins), handle the OAI colon form,
drop a `.pdf` extension and a query string, strip a trailing version suffix. -/
def _extract_arxiv_id_from_link (link : String) : String :=
  if link = "" then ""
  else
    let c0 := link.data
    let c1 :=
      match afterSub "/abs/".data c0 with
      | some rest => rest
      | none =>
        match afterSub "/pdf/".data c0 with
        | some rest => rest
        | none => c0
    let c2 :=
      if containsSub [':'] c1 ∧
          ("oai:".data.isPrefixOf c1 ∨ containsSub "arXiv.org:".data c1) then
        afterLastChar ':' c1
      else c1
    let c3 := beforeSub ".pdf".data c2
    let c4 := beforeSub ['?'] c3
    String.mk (pyStrip (stripVN c4))

/-- `ArxivRSSSearcher._safe_parse_datetime`: the three `strptime` attempts are
modelled by the oracle `strptimeO` (`none` = every format fails); fall back to
`datetime.now()` on an empty string or when every format fails. -/
def _safe_parse_datetime (strptimeO : String → Option Int) (now : Int)
    (dt_str : String) : Int :=
  if dt_str = "" then now
  else
    match strptimeO dt_str with
    | some v => v
    | none => now

/-- The link chosen for an entry: `getattr(entry, "link", None) or ""`, with
the fallback search through `entry.links` for an alternate arXiv abs link. -/
def entryLink (e : RSSEntry) : String :=
  let l0 := e.link.getD ""
  if l0 = "" ∧ e.links ≠ [] then
    match e.links.find? (fun l => l.rel == "alternate" && containsStr "arxiv.org/abs/" l.href) with
    | some l => l.href
    | none => ""
  else l0

/-- Strip every part produced by `re.split(r",| and ", s)` and drop the empty
ones (`[p.strip() for p in re.split(r",| and ", s) if p.strip()]`). -/
def splitNameParts (s : String) : List String :=
  ((reSplitAuthors s.data).map (fun l => pyStripS (String.mk l))).filter (fun p => p ≠ "")

/-- The author extraction of `_extract_paper_info`: use `entry.authors` when
present and non-empty (splitting any jammed-together name on commas or
`" and "`), else `entry.author`, else no authors. -/
def rssAuthors (e : RSSEntry) : List String :=
  let fromAuthors :=
    match e.authors with
    | some as =>
      if as ≠ [] then
        some (as.foldl (fun acc nameRaw =>
          let name_val := pyStripS nameRaw
          if name_val = "" then acc
          else
            let parts := splitNameParts name_val
            acc ++ (if 1 < parts.length then parts else [name_val])) [])
      else none
    | none => none
  match fromAuthors with
  | some names => (names.map pyStripS).filter (fun n => n ≠ "")
  | none =>
    match e.author with
    | some a =>
      if a ≠ "" then
        let raw_author := pyStripS a
        let parts := splitNameParts raw_author
        if 1 < parts.length then parts else [raw_author]
      else []
    | none => []

/-- The publication-date extraction: prefer `published_parsed`, then
`updated_parsed` (either can raise on a malformed tuple, giving `none`), then
best-effort parsing of the `published` / `updated` strings. -/
def rssPublishedDate (strptimeO : String → Option Int) (now : Int)
    (e : RSSEntry) : Option Int :=
  match e.published_parsed with
  | some po => po
  | none =>
    match e.updated_parsed with
    | some uo => uo
    | none =>
      let pub := e.published.getD ""
      let s := if pub ≠ "" then pub else e.updated.getD ""
      some (_safe_parse_datetime strptimeO now s)

/-- `ArxivRSSSearcher._extract_paper_info`; `unescape` is `html.unescape` and
`strptimeO` the `strptime` oracle.  `none` models the extraction raising,
which `search_papers` catches per item. -/
def _extract_paper_info (unescape : String → String)
    (strptimeO : String → Option Int) (now : Int) (e : RSSEntry) : Option Paper :=
  let entry_link := entryLink e
  let entry_id_raw := e.id.getD ""
  let link_for_id := if entry_link ≠ "" then entry_link else entry_id_raw
  let arxiv_id := _extract_arxiv_id_from_link link_for_id
  let authors := rssAuthors e
  match rssPublishedDate strptimeO now e with
  | none => none
  | some published_dt =>
    let categories :=
      match e.tags with
      | some ts => if ts ≠ [] then ts else []
      | none => []
    let title := normalizeWS (e.title.getD "")
    let raw_summary := e.summary.getD ""
    let cleaned0 :=
      match afterSub "Abstract:".data raw_summary.data with
      | some rest => String.mk rest
      | none => raw_summary
    let abstract := normalizeWS (unescape cleaned0)
    let arxiv_url := if entry_link ≠ "" then entry_link else entry_id_raw
    let pdf_url := if arxiv_id ≠ "" then "https://arxiv.org/pdf/" ++ arxiv_id ++ ".pdf" else ""
    some { arxiv_id := arxiv_id, title := title, abstract := abstract,
           authors := authors, published_date := published_dt,
           categories := categories, arxiv_url := arxiv_url, pdf_url := pdf_url }

/-- One iteration of the per-entry loop of `ArxivRSSSearcher.search_papers`:
skip on extraction failure, apply the date window, the client-side keyword
filter (`kw in (title + "\n" + abstract).lower()`, disabled when the
normalized keyword list is empty), then dedup by id. -/
def rssStep (keywords_norm : List String) (cutoff : Int)
    (extract : RSSEntry → Option Paper) (acc : SearchAcc) (e : RSSEntry) : SearchAcc :=
  match extract e with
  | none => acc
  | some p =>
    if p.published_date < cutoff then acc
    else if keywords_norm ≠ [] ∧
        ¬ keywords_norm.any (fun kw => containsStr kw (pyLower (p.title ++ "\n" ++ p.abstract))) then acc
    else if p.arxiv_id ∈ acc.seen then acc
    else ⟨acc.papers ++ [p], p.arxiv_id :: acc.seen⟩

/-- The keyword normalization of `search_papers`:
`[kw.strip().lower() for kw in keywords if kw and kw.strip()]`. -/
def keywordsNorm (keywords : List String) : List String :=
  (keywords.filter (fun kw => kw ≠ "" && pyStripS kw ≠ "")).map
    (fun kw => pyLower (pyStripS kw))

/-- The per-entry loop of `ArxivRSSSearcher.search_papers` over the parsed
feed entries. -/
def accumulate (kn : List String) (cutoff : Int) (ex : RSSEntry → Option Paper)
    (entries : List RSSEntry) : SearchAcc :=
  entries.foldl (rssStep kn cutoff ex) ⟨[], []⟩

/-- `ArxivRSSSearcher.search_papers`.  `fetched` is the outcome of the single
HTTP request for the CS feed (`none` = `requests.get` or `raise_for_status`
raising, in which case the method returns `[]`). -/
def search_papers (unescape : String → String) (strptimeO : String → Option Int)
    (fetched : Option (List RSSEntry)) (keywords : List String)
    (max_results : Nat) (days_back : Nat) (now : Int) : List Paper :=
  let cutoff : Int := now - 86400 * (days_back : Int)
  match fetched with
  | none => []
  | some entries =>
    let results := sortByDateDesc
      (accumulate (keywordsNorm keywords) cutoff
        (_extract_paper_info unescape strptimeO now) entries).papers
    let final_cap := max results.length (max_results * max 1 keywords.length)
    results.take final_cap

/-- `ArxivRSSSearcher.search_papers` without the final truncation. -/
def search_papers_nocap (unescape : String → String) (strptimeO : String → Option Int)
    (fetched : Option (List RSSEntry)) (keywords : List String)
    (days_back : Nat) (now : Int) : List Paper :=
  let cutoff : Int := now - 86400 * (days_back : Int)
  match fetched with
  | none => []
  | some entries =>
    sortByDateDesc
      (accumulate (keywordsNorm keywords) cutoff
        (_extract_paper_info unescape strptimeO now) entries).papers

end ArxivRSSSearcher

namespace GeminiAnalyzer

/-- Outcome of one `model.generate_content(prompt)` call together with the
`.text` access: either it raises, or it yields a text (`text ""` models a
falsy `response.text`). -/
inductive GenResult where
  | raises
  | text (s : String)
deriving DecidableEq, Repr

/-- The retry loop of `analyze_abstract` (`for attempt in range(max_retries)`),
with `i` the current attempt index and the last argument the number of
remaining attempts.  `.ok (some s)` = an attempt returned truthy text
(returned stripped); `.ok none` = the loop exhausted its attempts and falls
through to the fallback; `.error ()` = the final attempt raised, so the
exception is re-raised to the outer handler. -/
def analyzeLoop (call : Nat → GenResult) (max_retries i : Nat) :
    Nat → Except Unit (Option String)
  | 0 => .ok none
  | remaining + 1 =>
    match call i with
    | .text s =>
      if s ≠ "" then .ok (some (pyStripS s))
      else analyzeLoop call max_retries (i + 1) remaining
    | .raises =>
      if i = max_retries - 1 then .error ()
      else analyzeLoop call max_retries (i + 1) remaining

/-- The keyword-matched research-area label of `_get_fallback_analysis`. -/
def fallbackField (abstract : String) : String :=
  let low := pyLower abstract
  if ["machine learning", "deep learning", "neural"].any (fun w => containsStr w low) then
    "机器学习"
  else if ["computer vision", "image", "visual"].any (fun w => containsStr w low) then
    "计算机视觉"
  else if ["natural language", "nlp", "text"].any (fun w => containsStr w low) then
    "自然语言处理"
  else if ["robot", "control", "planning"].any (fun w => containsStr w low) then
    "机器人学"
  else "人工智能"

/-- `GeminiAnalyzer._get_fallback_analysis`: the deterministic rule-based
fallback text (the f-string template instantiated with the matched research
area, then stripped).  The title parameter is unused, as in the source. -/
def _get_fallback_analysis (abstract title : String) : String :=
  let field := fallbackField abstract
  pyStripS ("\n**研究领域**：" ++ field ++ "\n\n**核心贡献**：该论文在" ++ field ++
    "领域提出了新的方法和见解。\n\n**技术方法**：采用了先进的算法和技术框架来解决相关问题。\n\n**实验结果**：实验验证了所提方法的有效性。\n\n**意义价值**：为" ++
    field ++ "领域的发展提供了有价值的贡献。\n\n注：此为自动生成的简化分析，详细内容请查看原论文摘要。\n")

/-- `GeminiAnalyzer.analyze_abstract`: try the model up to `max_retries`
times, and on an exhausted loop or a propagated exception return the
rule-based fallback analysis. -/
def analyze_abstract (call : Nat → GenResult) (abstract title : String)
    (max_retries : Nat) : String :=
  match analyzeLoop call max_retries 0 max_retries with
  | .ok (some s) => s
  | .ok none => _get_fallback_analysis abstract title
  | .error _ => _get_fallback_analysis abstract title

end GeminiAnalyzer

namespace PDFProcessor

/-- Outcome of the streamed `requests.get` for a PDF: success; an HTTP-level
failure before the target file is opened (nothing written); or a failure in
the middle of streaming (a partial file is left at the target path). -/
inductive FetchOutcome where
  | ok
  | httpError
  | streamError
deriving DecidableEq, Repr

/-- `os.path.join(self.download_dir, f"{arxiv_id}.pdf")`. -/
def pdfPath (download_dir arxiv_id : String) : String :=
  download_dir ++ "/" ++ arxiv_id ++ ".pdf"

/-- The screenshot path `os.path.join(download_dir, 'screenshots', f"{arxiv_id}.png")`. -/
def screenshotPath (download_dir arxiv_id : String) : String :=
  download_dir ++ "/screenshots/" ++ arxiv_id ++ ".png"

/-- Result of one cache operation: the value returned to the caller, the
filesystem (set of existing paths) after the call, and the number of network
fetches the call performed. -/
structure CallResult where
  path : Option String
  fs : List String
  fetches : Nat
deriving DecidableEq, Repr

/-- `PDFProcessor.download_pdf`: return the per-id path immediately when the
file already exists; otherwise perform the network fetch, whose outcome is
`fetch`.  Any exception is caught and `None` is returned. -/
def download_pdf (fetch : FetchOutcome) (download_dir arxiv_id : String)
    (fs : List String) : CallResult :=
  let pdf_path := pdfPath download_dir arxiv_id
  if pdf_path ∈ fs then ⟨some pdf_path, fs, 0⟩
  else
    match fetch with
    | .ok => ⟨some pdf_path, pdf_path :: fs, 1⟩
    | .httpError => ⟨none, fs, 1⟩
    | .streamError => ⟨none, pdf_path :: fs, 1⟩

/-- `PDFProcessor.create_screenshot`: short-circuit when the screenshot
already exists, else rasterize the first page (`render` says whether the
open/render/save pipeline succeeds); failures are caught and `None` returned. -/
def create_screenshot (render : Bool) (download_dir arxiv_id : String)
    (fs : List String) : Option String × List String :=
  let screenshot_path := screenshotPath download_dir arxiv_id
  if screenshot_path ∈ fs then (some screenshot_path, fs)
  else if render then (some screenshot_path, screenshot_path :: fs)
  else (none, fs)

/-- `PDFProcessor.process_paper` for a paper with the given id: download the
PDF, create the screenshot, then delete the PDF (deletion failure ignored);
a failure of either stage raises, is caught, and yields `None`. -/
def process_paper (fetch : FetchOutcome) (render : Bool)
    (download_dir arxiv_id : String) (fs : List String) : CallResult :=
  let dl := download_pdf fetch download_dir arxiv_id fs
  match dl.path with
  | none => ⟨none, dl.fs, dl.fetches⟩
  | some pdf_path =>
    match create_screenshot render download_dir arxiv_id dl.fs with
    | (none, fs2) => ⟨none, fs2, dl.fetches⟩
    | (some shot, fs2) => ⟨some shot, fs2.erase pdf_path, dl.fetches⟩

end PDFProcessor

namespace MainTask

/-- The component calls made inside `main_task`'s per-paper loop, as oracles:
from the loop's point of view each callee either returns a value (`.ok`) or
raises (`.error`).  `process_paper` yields the screenshot path or `None`;
`analyze_abstract` is applied to the paper's abstract; the two email senders
and the WeChat sender yield their success flag; the two image generators
yield a generated path or `None`. -/
structure MainEnv where
  process_paper : Paper → Except Unit (Option String)
  analyze_abstract : String → Except Unit String
  send_paper_image_email : Paper → String → Option String → Except Unit Bool
  send_paper_email : Paper → String → Option String → Except Unit Bool
  generate_paper_image : Paper → String → Option String → Except Unit (Option String)
  generate_simple_text_image : Paper → String → Except Unit (Option String)
  send_paper_image : Paper → String → Except Unit Bool

/-- The configuration flags the loop body reads. -/
structure MainCfg where
  send_as_image : Bool
  wechat_enabled : Bool
deriving DecidableEq, Repr

/-- The image-path computation of the WeChat part of the loop body: WeChat
always uses the image format, generating the image (with the simple-text
fallback only in the non-image-email configuration, as in the source). -/
def wechatImagePath (env : MainEnv) (cfg : MainCfg) (p : Paper) (analysis : String)
    (screenshot_path : Option String) : Except Unit (Option String) :=
  if ¬ cfg.send_as_image then do
    match ← env.generate_paper_image p analysis screenshot_path with
    | some ip => pure (some ip)
    | none => env.generate_simple_text_image p analysis
  else env.generate_paper_image p analysis screenshot_path

/-- The WeChat part of the loop body (`main.py` lines 76-95): when enabled,
generate the image and send it; a missing image leaves
`wechat_success = False`. -/
def wechatBranch (env : MainEnv) (cfg : MainCfg) (p : Paper) (analysis : String)
    (screenshot_path : Option String) : Except Unit Bool := do
  if cfg.wechat_enabled then
    let image_path ← wechatImagePath env cfg p analysis screenshot_path
    match image_path with
    | some ip => env.send_paper_image p ip
    | none => pure false
  else
    pure false

/-- The body of one iteration of the per-paper loop of `main_task`
(the `try`-block, lines 61-105), producing `(email_success, wechat_success)`. -/
def paperBody (env : MainEnv) (cfg : MainCfg) (p : Paper) : Except Unit (Bool × Bool) := do
  let screenshot_path ← env.process_paper p
  let analysis ← env.analyze_abstract p.abstract
  let email_success ←
    if cfg.send_as_image then env.send_paper_image_email p analysis screenshot_path
    else env.send_paper_email p analysis screenshot_path
  let wechat_success ← wechatBranch env cfg p analysis screenshot_path
  pure (email_success, wechat_success)

/-- The per-paper outcome observable in the logs: the two channel success
flags, or `none` when the body raised and the boundary `except` caught it
(`continue`). -/
def processOne (env : MainEnv) (cfg : MainCfg) (p : Paper) : Option (Bool × Bool) :=
  match paperBody env cfg p with
  | .ok r => some r
  | .error _ => none

/-- The whole `for i, paper in enumerate(papers, 1)` loop of `main_task`:
every paper is processed in order; a raising body only affects its own entry. -/
def mainLoop (env : MainEnv) (cfg : MainCfg) : List Paper → List (Option (Bool × Bool))
  | [] => []
  | p :: rest => processOne env cfg p :: mainLoop env cfg rest

end MainTask

/-- Python `'  ' in s`-style test: the list has two adjacent spaces. -/
def hasDD : List Char → Bool
  | [] => false
  | [_] => false
  | c₁ :: c₂ :: rest => (c₁ == ' ' && c₂ == ' ') || hasDD (c₂ :: rest)

/-- The list has three adjacent spaces. -/
def hasTriple : List Char → Bool
  | c₁ :: c₂ :: c₃ :: rest => (c₁ == ' ' && c₂ == ' ' && c₃ == ' ') || hasTriple (c₂ :: c₃ :: rest)
  | _ => false

section HelperLemmas

theorem foldl_inv {σ α : Type} {P : σ → Prop} (f : σ → α → σ)
    (hf : ∀ s a, P s → P (f s a)) : ∀ (l : List α) (s : σ), P s → P (l.foldl f s)
  | [], _, hs => hs
  | a :: l, s, hs => foldl_inv f hf l (f s a) (hf s a hs)

theorem insertDesc_perm (p : Paper) (l : List Paper) :
    List.Perm (insertDesc p l) (p :: l) := by
  induction l with
  | nil => exact List.Perm.refl _
  | cons q rest ih =>
    by_cases h : q.published_date ≤ p.published_date
    · simp [insertDesc, h]
    · simp only [insertDesc, if_neg h]
      exact (ih.cons q).trans (List.Perm.swap p q rest)

theorem sortByDateDesc_perm (l : List Paper) : List.Perm (sortByDateDesc l) l := by
  induction l with
  | nil => exact List.Perm.refl _
  | cons p rest ih =>
    have : sortByDateDesc (p :: rest) = insertDesc p (sortByDateDesc rest) := rfl
    rw [this]
    exact (insertDesc_perm p (sortByDateDesc rest)).trans (ih.cons p)

theorem mem_sortByDateDesc {p : Paper} {l : List Paper} :
    p ∈ sortByDateDesc l ↔ p ∈ l :=
  (sortByDateDesc_perm l).mem_iff

theorem length_sortByDateDesc (l : List Paper) :
    (sortByDateDesc l).length = l.length :=
  (sortByDateDesc_perm l).length_eq

theorem pairwise_sortByDateDesc {R : Paper → Paper → Prop} (hR : Symmetric R)
    {l : List Paper} (h : l.Pairwise R) : (sortByDateDesc l).Pairwise R :=
  ((sortByDateDesc_perm l).pairwise_iff @hR).mpr h

theorem mem_dropWhile_of_not {α : Type} (p : α → Bool) {l : List α} {a : α}
    (ha : a ∈ l) (hpa : p a = false) : a ∈ l.dropWhile p := by
  induction l with
  | nil => cases ha
  | cons c rest ih =>
    by_cases hc : p c
    · rw [List.dropWhile_cons_of_pos hc]
      rcases List.mem_cons.mp ha with rfl | hmem
      · rw [hpa] at hc; cases hc
      · exact ih hmem
    · rw [List.dropWhile_cons_of_neg hc]
      exact ha

theorem pyStrip_ne_nil {l : List Char} {a : Char} (ha : a ∈ l)
    (hpa : isPySpace a = false) : pyStrip l ≠ [] := by
  unfold pyStrip
  intro hcontra
  have h1 : a ∈ l.dropWhile isPySpace := mem_dropWhile_of_not _ ha hpa
  have h2 : a ∈ (l.dropWhile isPySpace).reverse := List.mem_reverse.mpr h1
  have h3 : a ∈ (l.dropWhile isPySpace).reverse.dropWhile isPySpace :=
    mem_dropWhile_of_not _ h2 hpa
  rw [List.reverse_eq_nil_iff.mp hcontra] at h3
  cases h3

/-- `pyStrip` removes a run from each end: the result is a contiguous segment. -/
theorem pyStrip_decomp (l : List Char) : ∃ u v, u ++ (pyStrip l ++ v) = l := by
  obtain ⟨t, ht⟩ := List.dropWhile_suffix (l := l) isPySpace
  obtain ⟨u2, hu2⟩ := List.dropWhile_suffix (l := (l.dropWhile isPySpace).reverse) isPySpace
  refine ⟨t, u2.reverse, ?_⟩
  have hx : pyStrip l ++ u2.reverse = l.dropWhile isPySpace := by
    unfold pyStrip
    have := congrArg List.reverse hu2
    simpa using this
  rw [hx, ht]

theorem hasDD_cons_of {c : Char} {l : List Char} (h : hasDD l = true) :
    hasDD (c :: l) = true := by
  cases l with
  | nil => simp [hasDD] at h
  | cons d rest => simp only [hasDD] at h ⊢; rw [h]; simp

theorem hasDD_append_left {l₁ l₂ : List Char} (h : hasDD l₁ = true) :
    hasDD (l₁ ++ l₂) = true := by
  induction l₁ with
  | nil => simp [hasDD] at h
  | cons c tl ih =>
    cases tl with
    | nil => simp [hasDD] at h
    | cons d rest =>
      simp only [hasDD, Bool.or_eq_true] at h
      rcases h with h | h
      · simp only [List.cons_append, hasDD, Bool.or_eq_true]
        exact Or.inl h
      · have := ih h
        simpa using hasDD_cons_of (c := c) this

theorem hasDD_append_right {l₁ l₂ : List Char} (h : hasDD l₂ = true) :
    hasDD (l₁ ++ l₂) = true := by
  induction l₁ with
  | nil => simpa using h
  | cons c tl ih => simpa using hasDD_cons_of (c := c) ih

theorem hasDD_pyStrip {l : List Char} (h : hasDD l = false) :
    hasDD (pyStrip l) = false := by
  obtain ⟨u, v, huv⟩ := pyStrip_decomp l
  by_contra hc
  have hc' : hasDD (pyStrip l) = true := by
    cases hdd : hasDD (pyStrip l) with
    | false => exact absurd hdd hc
    | true => rfl
  have : hasDD l = true := by
    rw [← huv]
    exact hasDD_append_right (hasDD_append_left hc')
  rw [h] at this
  cases this

theorem hasTriple_tail {c : Char} {l : List Char} (h : hasTriple (c :: l) = false) :
    hasTriple l = false := by
  match l with
  | [] => rfl
  | [_] => rfl
  | c₂ :: c₃ :: rest =>
    simp only [hasTriple, Bool.or_eq_false_iff] at h
    exact h.2

theorem collapseOnce_head : ∀ (l : List Char), (collapseOnce l).head? = l.head?
  | [] => rfl
  | [c] => rfl
  | c₁ :: c₂ :: rest => by
    by_cases h : c₁ = ' ' ∧ c₂ = ' '
    · simp only [collapseOnce, if_pos h, List.head?]
      rw [h.1]
    · simp only [collapseOnce, if_neg h, List.head?]

theorem hasDD_collapseOnce : ∀ {l : List Char}, hasTriple l = false →
    hasDD (collapseOnce l) = false
  | [], _ => rfl
  | [c], _ => rfl
  | c₁ :: c₂ :: rest, h => by
    by_cases hsp : c₁ = ' ' ∧ c₂ = ' '
    · rw [collapseOnce, if_pos hsp]
      have hrest : hasTriple rest = false := hasTriple_tail (hasTriple_tail h)
      have ih := hasDD_collapseOnce hrest
      have hhd : rest.head? ≠ some ' ' := by
        intro hr
        cases rest with
        | nil => cases hr
        | cons c₃ r =>
          simp only [List.head?, Option.some.injEq] at hr
          rw [hsp.1, hsp.2, hr] at h
          simp [hasTriple] at h
      cases hX : collapseOnce rest with
      | nil => rfl
      | cons x xs =>
        have hx : x ≠ ' ' := by
          intro hx
          apply hhd
          rw [← collapseOnce_head rest, hX, hx]
          rfl
        rw [hX] at ih
        simp only [hasDD, Bool.or_eq_false_iff]
        constructor
        · simp [hx]
        · exact ih
    · rw [collapseOnce, if_neg hsp]
      have ih := hasDD_collapseOnce (hasTriple_tail h)
      cases hX : collapseOnce (c₂ :: rest) with
      | nil => rfl
      | cons x xs =>
        have hx : x = c₂ := by
          have := collapseOnce_head (c₂ :: rest)
          rw [hX] at this
          simpa using this
        rw [hX] at ih
        simp only [hasDD, Bool.or_eq_false_iff]
        refine ⟨?_, ih⟩
        subst hx
        by_cases h1 : c₁ = ' '
        · have h2 : ¬ x = ' ' := fun h2 => hsp ⟨h1, h2⟩
          simp [h2]
        · simp [h1]

theorem mem_collapseOnce : ∀ {c : Char} {l : List Char}, c ∈ collapseOnce l → c ∈ l
  | _, [], h => h
  | _, [_], h => h
  | c, c₁ :: c₂ :: rest, h => by
    by_cases hsp : c₁ = ' ' ∧ c₂ = ' '
    · rw [collapseOnce, if_pos hsp] at h
      rcases List.mem_cons.mp h with rfl | h
      · rw [← hsp.1]; exact List.mem_cons_self _ _
      · exact List.mem_cons_of_mem _ (List.mem_cons_of_mem _ (mem_collapseOnce h))
    · rw [collapseOnce, if_neg hsp] at h
      rcases List.mem_cons.mp h with rfl | h
      · exact List.mem_cons_self _ _
      · exact List.mem_cons_of_mem _ (mem_collapseOnce h)

theorem mem_pyStrip {c : Char} {l : List Char} (h : c ∈ pyStrip l) : c ∈ l := by
  obtain ⟨u, v, huv⟩ := pyStrip_decomp l
  rw [← huv]
  exact List.mem_append_right u (List.mem_append_left v h)

theorem no_newline_normalizeWS (s : String) : '\n' ∉ (normalizeWS s).data := by
  intro hmem
  have h1 : '\n' ∈ collapseOnce (replaceNL s.data) := mem_pyStrip hmem
  have h2 : '\n' ∈ replaceNL s.data := mem_collapseOnce h1
  unfold replaceNL at h2
  obtain ⟨c, _, hc⟩ := List.mem_map.mp h2
  by_cases hcn : c = '\n'
  · rw [if_pos hcn] at hc; cases hc
  · rw [if_neg hcn] at hc; exact hcn hc

theorem hasDD_normalizeWS {s : String} (h : hasTriple (replaceNL s.data) = false) :
    hasDD (normalizeWS s).data = false := by
  unfold normalizeWS
  exact hasDD_pyStrip (hasDD_collapseOnce h)

end HelperLemmas

section AccumulatorInvariants

/-- The dedup invariant of both search loops: the gathered papers carry
pairwise distinct ids, all of which are recorded in the seen set. -/
def IdsInv (acc : SearchAcc) : Prop :=
  acc.papers.Pairwise (fun a b => a.arxiv_id ≠ b.arxiv_id) ∧
  ∀ p ∈ acc.papers, p.arxiv_id ∈ acc.seen

/-- Every paper gathered so far passed the temporal post-filter. -/
def DateInv (cutoff : Int) (acc : SearchAcc) : Prop :=
  ∀ p ∈ acc.papers, cutoff ≤ p.published_date

theorem idsInv_init : IdsInv ⟨[], []⟩ :=
  ⟨List.Pairwise.nil, fun _ h => absurd h (List.not_mem_nil _)⟩

theorem dateInv_init (cutoff : Int) : DateInv cutoff ⟨[], []⟩ :=
  fun _ h => absurd h (List.not_mem_nil _)

theorem idsInv_append {acc : SearchAcc} {p : Paper} (h : IdsInv acc)
    (hp : p.arxiv_id ∉ acc.seen) :
    IdsInv ⟨acc.papers ++ [p], p.arxiv_id :: acc.seen⟩ := by
  constructor
  · rw [List.pairwise_append]
    refine ⟨h.1, List.pairwise_singleton _ _, ?_⟩
    intro a ha b hb
    rw [List.mem_singleton] at hb
    subst hb
    intro he
    exact hp (he ▸ h.2 a ha)
  · intro q hq
    rcases List.mem_append.mp hq with hq | hq
    · exact List.mem_cons_of_mem _ (h.2 q hq)
    · rw [List.mem_singleton] at hq
      subst hq
      exact List.mem_cons_self _ _

theorem searchStep_idsInv (cutoff : Int) (acc : SearchAcc)
    (e : ArxivSearcher.ApiEntry) (h : IdsInv acc) :
    IdsInv (ArxivSearcher.searchStep cutoff acc e) := by
  rcases hx : ArxivSearcher.extract_paper_info e with _ | p
  · simpa only [ArxivSearcher.searchStep, hx] using h
  · simp only [ArxivSearcher.searchStep, hx]
    by_cases hseen : p.arxiv_id ∈ acc.seen
    · rw [if_pos hseen]; exact h
    · rw [if_neg hseen]
      by_cases hdate : cutoff ≤ p.published_date
      · rw [if_pos hdate]; exact idsInv_append h hseen
      · rw [if_neg hdate]; exact h

theorem searchStep_dateInv (cutoff : Int) (acc : SearchAcc)
    (e : ArxivSearcher.ApiEntry) (h : DateInv cutoff acc) :
    DateInv cutoff (ArxivSearcher.searchStep cutoff acc e) := by
  rcases hx : ArxivSearcher.extract_paper_info e with _ | p
  · simpa only [ArxivSearcher.searchStep, hx] using h
  · simp only [ArxivSearcher.searchStep, hx]
    by_cases hseen : p.arxiv_id ∈ acc.seen
    · rw [if_pos hseen]; exact h
    · rw [if_neg hseen]
      by_cases hdate : cutoff ≤ p.published_date
      · rw [if_pos hdate]
        intro q hq
        rcases List.mem_append.mp hq with hq | hq
        · exact h q hq
        · rw [List.mem_singleton] at hq
          subst hq
          exact hdate
      · rw [if_neg hdate]; exact h

theorem rssStep_idsInv (kn : List String) (cutoff : Int)
    (ex : ArxivRSSSearcher.RSSEntry → Option Paper) (acc : SearchAcc)
    (e : ArxivRSSSearcher.RSSEntry) (h : IdsInv acc) :
    IdsInv (ArxivRSSSearcher.rssStep kn cutoff ex acc e) := by
  rcases hx : ex e with _ | p
  · simpa only [ArxivRSSSearcher.rssStep, hx] using h
  · simp only [ArxivRSSSearcher.rssStep, hx]
    split
    · exact h
    · split
      · exact h
      · by_cases hseen : p.arxiv_id ∈ acc.seen
        · rw [if_pos hseen]; exact h
        · rw [if_neg hseen]; exact idsInv_append h hseen

theorem rssStep_dateInv (kn : List String) (cutoff : Int)
    (ex : ArxivRSSSearcher.RSSEntry → Option Paper) (acc : SearchAcc)
    (e : ArxivRSSSearcher.RSSEntry) (h : DateInv cutoff acc) :
    DateInv cutoff (ArxivRSSSearcher.rssStep kn cutoff ex acc e) := by
  rcases hx : ex e with _ | p
  · simpa only [ArxivRSSSearcher.rssStep, hx] using h
  · simp only [ArxivRSSSearcher.rssStep, hx]
    split
    next hdate => exact h
    next hdate =>
      split
      · exact h
      · by_cases hseen : p.arxiv_id ∈ acc.seen
        · rw [if_pos hseen]; exact h
        · rw [if_neg hseen]
          intro q hq
          rcases List.mem_append.mp hq with hq | hq
          · exact h q hq
          · rw [List.mem_singleton] at hq
            subst hq
            exact Int.not_lt.mp hdate

theorem query_accumulate_idsInv (cutoff : Int)
    (queries : List (String × Option (List ArxivSearcher.ApiEntry))) :
    IdsInv (ArxivSearcher.accumulate cutoff queries) := by
  unfold ArxivSearcher.accumulate
  apply foldl_inv _ _ _ _ idsInv_init
  intro acc q hacc
  cases q.2 with
  | none => exact hacc
  | some entries => exact foldl_inv _ (searchStep_idsInv cutoff) entries acc hacc

theorem query_accumulate_dateInv (cutoff : Int)
    (queries : List (String × Option (List ArxivSearcher.ApiEntry))) :
    DateInv cutoff (ArxivSearcher.accumulate cutoff queries) := by
  unfold ArxivSearcher.accumulate
  apply foldl_inv _ _ _ _ (dateInv_init cutoff)
  intro acc q hacc
  cases q.2 with
  | none => exact hacc
  | some entries => exact foldl_inv _ (searchStep_dateInv cutoff) entries acc hacc

theorem rss_accumulate_idsInv (kn : List String) (cutoff : Int)
    (ex : ArxivRSSSearcher.RSSEntry → Option Paper)
    (entries : List ArxivRSSSearcher.RSSEntry) :
    IdsInv (ArxivRSSSearcher.accumulate kn cutoff ex entries) :=
  foldl_inv _ (rssStep_idsInv kn cutoff ex) entries _ idsInv_init

theorem rss_accumulate_dateInv (kn : List String) (cutoff : Int)
    (ex : ArxivRSSSearcher.RSSEntry → Option Paper)
    (entries : List ArxivRSSSearcher.RSSEntry) :
    DateInv cutoff (ArxivRSSSearcher.accumulate kn cutoff ex entries) :=
  foldl_inv _ (rssStep_dateInv kn cutoff ex) entries _ (dateInv_init cutoff)

end AccumulatorInvariants

/-- C1: Dedup invariant — for every discovery run of either adapter variant
(any keyword list, maxResults, lookbackDays, and any sequence of upstream
feed entries), the returned list contains no two records with the same
normalized arXiv id, even when the same paper is matched by more than one
keyword's query. -/
theorem claim1_dedup_invariant :
    (∀ (queries : List (String × Option (List ArxivSearcher.ApiEntry)))
       (max_results days_back : Nat) (now : Int),
      (ArxivSearcher.search_papers queries max_results days_back now).Pairwise
        (fun a b => a.arxiv_id ≠ b.arxiv_id)) ∧
    (∀ (unescape : String → String) (strptimeO : String → Option Int)
       (fetched : Option (List ArxivRSSSearcher.RSSEntry)) (keywords : List String)
       (max_results days_back : Nat) (now : Int),
      (ArxivRSSSearcher.search_papers unescape strptimeO fetched keywords
          max_results days_back now).Pairwise
        (fun a b => a.arxiv_id ≠ b.arxiv_id)) := by
  have hsymm : Symmetric (fun a b : Paper => a.arxiv_id ≠ b.arxiv_id) :=
    fun {a b} h he => h he.symm
  constructor
  · intro queries mr db now
    simp only [ArxivSearcher.search_papers]
    exact (pairwise_sortByDateDesc hsymm
      (query_accumulate_idsInv _ queries).1).sublist (List.take_sublist _ _)
  · intro ue spo fetched keywords mr db now
    cases fetched with
    | none => exact List.Pairwise.nil
    | some entries =>
      simp only [ArxivRSSSearcher.search_papers]
      exact (pairwise_sortByDateDesc hsymm
        (rss_accumulate_idsInv _ _ _ entries).1).sublist (List.take_sublist _ _)

/-- C2: ID normalization — the Feed adapter's id extraction maps an `/abs/`
link with version suffix, a `/pdf/` link with `.pdf` extension, and an OAI
identifier (and, additionally, a link carrying a query string) all to the
bare id `"2507.12345"`. -/
theorem claim2_id_normalization :
    ArxivRSSSearcher._extract_arxiv_id_from_link
        "https://arxiv.org/abs/2507.12345v3" = "2507.12345" ∧
    ArxivRSSSearcher._extract_arxiv_id_from_link
        "https://arxiv.org/pdf/2507.12345v1.pdf" = "2507.12345" ∧
    ArxivRSSSearcher._extract_arxiv_id_from_link
        "oai:arXiv.org:2507.12345v2" = "2507.12345" ∧
    ArxivRSSSearcher._extract_arxiv_id_from_link
        "https://arxiv.org/abs/2507.12345v3?context=cs.LG" = "2507.12345" :=
  ⟨by decide, by decide, by decide, by decide⟩

/-- C3: Temporal post-filter — exclusion: every record returned by either
adapter has `publishedAt ≥ now − lookbackDays` (in seconds,
`now − 86400·days_back`), so an item strictly older than the cutoff is never
in the returned list even when the coarse date-range query admitted it;
retention: the per-item loop step appends any item that extracts with
`publishedAt` at or after the cutoff and a fresh id (and, for the Feed
variant, passing the keyword filter) — the temporal check never drops it. -/
theorem claim3_temporal_post_filter :
    (∀ (queries : List (String × Option (List ArxivSearcher.ApiEntry)))
       (max_results days_back : Nat) (now : Int) (p : Paper),
      p ∈ ArxivSearcher.search_papers queries max_results days_back now →
      now - 86400 * (days_back : Int) ≤ p.published_date) ∧
    (∀ (cutoff : Int) (acc : SearchAcc) (e : ArxivSearcher.ApiEntry) (p : Paper),
      ArxivSearcher.extract_paper_info e = some p →
      p.arxiv_id ∉ acc.seen → cutoff ≤ p.published_date →
      ArxivSearcher.searchStep cutoff acc e =
        ⟨acc.papers ++ [p], p.arxiv_id :: acc.seen⟩) ∧
    (∀ (ue : String → String) (spo : String → Option Int)
       (fetched : Option (List ArxivRSSSearcher.RSSEntry)) (keywords : List String)
       (max_results days_back : Nat) (now : Int) (p : Paper),
      p ∈ ArxivRSSSearcher.search_papers ue spo fetched keywords max_results days_back now →
      now - 86400 * (days_back : Int) ≤ p.published_date) ∧
    (∀ (kn : List String) (cutoff : Int)
       (ex : ArxivRSSSearcher.RSSEntry → Option Paper) (acc : SearchAcc)
       (e : ArxivRSSSearcher.RSSEntry) (p : Paper),
      ex e = some p →
      ¬ p.published_date < cutoff →
      ¬ (kn ≠ [] ∧
        ¬ (kn.any fun kw => containsStr kw (pyLower (p.title ++ "\n" ++ p.abstract))) = true) →
      p.arxiv_id ∉ acc.seen →
      ArxivRSSSearcher.rssStep kn cutoff ex acc e =
        ⟨acc.papers ++ [p], p.arxiv_id :: acc.seen⟩) := by
  refine ⟨?_, ?_, ?_, ?_⟩
  · intro queries mr db now p hp
    simp only [ArxivSearcher.search_papers] at hp
    exact query_accumulate_dateInv _ queries p
      (mem_sortByDateDesc.mp (List.take_subset _ _ hp))
  · intro cutoff acc e p hx hseen hdate
    simp only [ArxivSearcher.searchStep, hx]
    rw [if_neg hseen, if_pos hdate]
  · intro ue spo fetched keywords mr db now p hp
    cases fetched with
    | none => cases hp
    | some entries =>
      simp only [ArxivRSSSearcher.search_papers] at hp
      exact rss_accumulate_dateInv _ _ _ entries p
        (mem_sortByDateDesc.mp (List.take_subset _ _ hp))
  · intro kn cutoff ex acc e p hx h1 h2 hseen
    simp only [ArxivRSSSearcher.rssStep, hx]
    rw [if_neg h1, if_neg h2, if_neg hseen]

/-- C8: Soft-cap truncation — the returned list is the accumulated
deduplicated list truncated to `max(totalUniqueCount, maxResults ×
keywordCount)` entries, and since this bound is never below the list's own
length, the returned list equals the untruncated accumulated, date-filtered,
deduplicated, date-descending-sorted list: the cap never removes an element
(both adapter variants). -/
theorem claim8_soft_cap_never_truncates :
    (∀ (queries : List (String × Option (List ArxivSearcher.ApiEntry)))
       (max_results days_back : Nat) (now : Int),
      ArxivSearcher.search_papers queries max_results days_back now =
        ArxivSearcher.search_papers_nocap queries days_back now) ∧
    (∀ (ue : String → String) (spo : String → Option Int)
       (fetched : Option (List ArxivRSSSearcher.RSSEntry)) (keywords : List String)
       (max_results days_back : Nat) (now : Int),
      ArxivRSSSearcher.search_papers ue spo fetched keywords max_results days_back now =
        ArxivRSSSearcher.search_papers_nocap ue spo fetched keywords days_back now) := by
  constructor
  · intro queries mr db now
    simp only [ArxivSearcher.search_papers, ArxivSearcher.search_papers_nocap]
    exact List.take_of_length_le (le_max_left _ _)
  · intro ue spo fetched keywords mr db now
    cases fetched with
    | none => rfl
    | some entries =>
      simp only [ArxivRSSSearcher.search_papers, ArxivRSSSearcher.search_papers_nocap]
      exact List.take_of_length_le (le_max_left _ _)

section FailureIsolationHelpers

theorem query_entry_skip {cutoff : Int} {e : ArxivSearcher.ApiEntry}
    (hx : ArxivSearcher.extract_paper_info e = none)
    (es₁ es₂ : List ArxivSearcher.ApiEntry) (acc : SearchAcc) :
    (es₁ ++ e :: es₂).foldl (ArxivSearcher.searchStep cutoff) acc =
      (es₁ ++ es₂).foldl (ArxivSearcher.searchStep cutoff) acc := by
  rw [List.foldl_append, List.foldl_append, List.foldl_cons]
  congr 1
  simp only [ArxivSearcher.searchStep, hx]

theorem query_accumulate_congr (cutoff : Int)
    (q₁ q₂ : List (String × Option (List ArxivSearcher.ApiEntry)))
    (x y : String × Option (List ArxivSearcher.ApiEntry))
    (hxy : ∀ acc : SearchAcc,
      (match x.2 with
       | none => acc
       | some es => es.foldl (ArxivSearcher.searchStep cutoff) acc) =
      (match y.2 with
       | none => acc
       | some es => es.foldl (ArxivSearcher.searchStep cutoff) acc)) :
    ArxivSearcher.accumulate cutoff (q₁ ++ x :: q₂) =
      ArxivSearcher.accumulate cutoff (q₁ ++ y :: q₂) := by
  unfold ArxivSearcher.accumulate
  rw [List.foldl_append, List.foldl_append, List.foldl_cons, List.foldl_cons]
  congr 1
  exact hxy _

theorem rss_entry_skip {kn : List String} {cutoff : Int}
    {ex : ArxivRSSSearcher.RSSEntry → Option Paper} {e : ArxivRSSSearcher.RSSEntry}
    (hx : ex e = none) (es₁ es₂ : List ArxivRSSSearcher.RSSEntry) (acc : SearchAcc) :
    (es₁ ++ e :: es₂).foldl (ArxivRSSSearcher.rssStep kn cutoff ex) acc =
      (es₁ ++ es₂).foldl (ArxivRSSSearcher.rssStep kn cutoff ex) acc := by
  rw [List.foldl_append, List.foldl_append, List.foldl_cons]
  congr 1
  simp only [ArxivRSSSearcher.rssStep, hx]

end FailureIsolationHelpers

/-- C4: Search never raises — search failures are modelled as explicit
outcomes, and the search functions are total on all of them, returning a
(possibly empty) list; moreover a failure is isolated: a keyword whose HTTP
query raises contributes exactly as much as a keyword with an empty response
(Query-API variant), an unreachable feed yields `[]` (Feed variant), and an
entry whose extraction raises contributes exactly nothing, leaving the
sibling entries' results intact (both variants). -/
theorem claim4_failure_isolation :
    (∀ (q₁ q₂ : List (String × Option (List ArxivSearcher.ApiEntry))) (kw : String)
       (max_results days_back : Nat) (now : Int),
      ArxivSearcher.search_papers (q₁ ++ (kw, none) :: q₂) max_results days_back now =
        ArxivSearcher.search_papers (q₁ ++ (kw, some []) :: q₂) max_results days_back now) ∧
    (∀ (q₁ q₂ : List (String × Option (List ArxivSearcher.ApiEntry))) (kw : String)
       (es₁ es₂ : List ArxivSearcher.ApiEntry) (e : ArxivSearcher.ApiEntry)
       (max_results days_back : Nat) (now : Int),
      ArxivSearcher.extract_paper_info e = none →
      ArxivSearcher.search_papers (q₁ ++ (kw, some (es₁ ++ e :: es₂)) :: q₂)
          max_results days_back now =
        ArxivSearcher.search_papers (q₁ ++ (kw, some (es₁ ++ es₂)) :: q₂)
          max_results days_back now) ∧
    (∀ (ue : String → String) (spo : String → Option Int) (keywords : List String)
       (max_results days_back : Nat) (now : Int),
      ArxivRSSSearcher.search_papers ue spo none keywords max_results days_back now = []) ∧
    (∀ (ue : String → String) (spo : String → Option Int)
       (es₁ es₂ : List ArxivRSSSearcher.RSSEntry) (e : ArxivRSSSearcher.RSSEntry)
       (keywords : List String) (max_results days_back : Nat) (now : Int),
      ArxivRSSSearcher._extract_paper_info ue spo now e = none →
      ArxivRSSSearcher.search_papers ue spo (some (es₁ ++ e :: es₂)) keywords
          max_results days_back now =
        ArxivRSSSearcher.search_papers ue spo (some (es₁ ++ es₂)) keywords
          max_results days_back now) := by
  refine ⟨?_, ?_, ?_, ?_⟩
  · intro q₁ q₂ kw mr db now
    have hacc := query_accumulate_congr (now - 86400 * (db : Int)) q₁ q₂
      (kw, none) (kw, some []) (fun _ => rfl)
    simp only [ArxivSearcher.search_papers, hacc, List.length_append, List.length_cons]
  · intro q₁ q₂ kw es₁ es₂ e mr db now hx
    have hacc := query_accumulate_congr (now - 86400 * (db : Int)) q₁ q₂
      (kw, some (es₁ ++ e :: es₂)) (kw, some (es₁ ++ es₂))
      (fun acc => query_entry_skip hx es₁ es₂ acc)
    simp only [ArxivSearcher.search_papers, hacc, List.length_append, List.length_cons]
  · intro ue spo keywords mr db now
    rfl
  · intro ue spo es₁ es₂ e keywords mr db now hx
    have hacc : ArxivRSSSearcher.accumulate (ArxivRSSSearcher.keywordsNorm keywords)
        (now - 86400 * (db : Int)) (ArxivRSSSearcher._extract_paper_info ue spo now)
        (es₁ ++ e :: es₂) =
      ArxivRSSSearcher.accumulate (ArxivRSSSearcher.keywordsNorm keywords)
        (now - 86400 * (db : Int)) (ArxivRSSSearcher._extract_paper_info ue spo now)
        (es₁ ++ es₂) := rss_entry_skip hx es₁ es₂ _
    simp only [ArxivRSSSearcher.search_papers, hacc]

/-- A string containing an asterisk does not strip to the empty string. -/
theorem pyStripS_star_ne_empty (s : String) (h : '*' ∈ s.data) : pyStripS s ≠ "" := by
  intro hcontra
  exact pyStrip_ne_nil h (by decide) (congrArg String.data hcontra)

/-- The fallback analysis is never the empty string: after stripping, it
still starts with a printable character. -/
theorem fallback_ne_empty (abstract title : String) :
    GeminiAnalyzer._get_fallback_analysis abstract title ≠ "" := by
  apply pyStripS_star_ne_empty
  have hmem0 : '*' ∈ ("\n**研究领域**：").data := by decide
  simp only [String.data_append, List.mem_append]
  tauto

/-- When every attempt the loop can reach raises or yields falsy text, the
loop either exhausts its attempts or re-raises on the last one. -/
theorem analyzeLoop_all_bad (call : Nat → GeminiAnalyzer.GenResult) :
    ∀ (rem i : Nat), i + rem ≤ 3 →
    (∀ j, j < 3 → (call j = GeminiAnalyzer.GenResult.raises ∨
      call j = GeminiAnalyzer.GenResult.text "")) →
    (GeminiAnalyzer.analyzeLoop call 3 i rem = .ok none ∨
      GeminiAnalyzer.analyzeLoop call 3 i rem = .error ())
  | 0, _, _, _ => Or.inl rfl
  | rem + 1, i, hle, h => by
    have hi : i < 3 := by omega
    have e : GeminiAnalyzer.analyzeLoop call 3 i (rem + 1) =
        match call i with
        | .text s => if s ≠ "" then .ok (some (pyStripS s))
                     else GeminiAnalyzer.analyzeLoop call 3 (i + 1) rem
        | .raises => if i = 3 - 1 then .error ()
                     else GeminiAnalyzer.analyzeLoop call 3 (i + 1) rem := rfl
    rcases h i hi with hc | hc
    · rw [e, hc]
      simp only []
      by_cases h2 : i = 3 - 1
      · rw [if_pos h2]
        exact Or.inr rfl
      · rw [if_neg h2]
        exact analyzeLoop_all_bad call rem (i + 1) (by omega) h
    · rw [e, hc]
      simp only []
      rw [if_neg (by simp : ¬ (("" : String) ≠ ""))]
      exact analyzeLoop_all_bad call rem (i + 1) (by omega) h

/-- C5: Analyzer retry-then-fallback — if every one of the three attempts
against the model either raises or returns empty text, `analyze_abstract`
returns exactly the deterministic rule-based fallback analysis, which is a
non-empty string, for every `(abstract, title)` input. -/
theorem claim5_retry_then_fallback (call : Nat → GeminiAnalyzer.GenResult)
    (abstract title : String)
    (h : ∀ i < 3, call i = GeminiAnalyzer.GenResult.raises ∨
      call i = GeminiAnalyzer.GenResult.text "") :
    GeminiAnalyzer.analyze_abstract call abstract title 3 =
      GeminiAnalyzer._get_fallback_analysis abstract title ∧
    GeminiAnalyzer._get_fallback_analysis abstract title ≠ "" := by
  refine ⟨?_, fallback_ne_empty abstract title⟩
  unfold GeminiAnalyzer.analyze_abstract
  rcases analyzeLoop_all_bad call 3 0 (by omega) h with hres | hres <;> rw [hres]

/-- The Feed adapter's pipeline with the keyword filter disabled: every feed
item inside the lookback window, deduplicated by id, sorted by publication
date descending (and no truncation).  This is the spec's description of the
result when no keyword is configured. -/
def rss_search_all_in_window (unescape : String → String)
    (strptimeO : String → Option Int)
    (fetched : Option (List ArxivRSSSearcher.RSSEntry))
    (days_back : Nat) (now : Int) : List Paper :=
  let cutoff : Int := now - 86400 * (days_back : Int)
  match fetched with
  | none => []
  | some entries =>
    sortByDateDesc
      (ArxivRSSSearcher.accumulate [] cutoff
        (ArxivRSSSearcher._extract_paper_info unescape strptimeO now) entries).papers

/-- C10: an empty keyword list — or one whose every keyword strips to the
empty string — normalizes to the empty keyword list, which disables the Feed
adapter's keyword filter: the result is every feed item inside the lookback
window, deduplicated and sorted, rather than an empty list. -/
theorem claim10_empty_keywords_disable_filter (unescape : String → String)
    (strptimeO : String → Option Int)
    (fetched : Option (List ArxivRSSSearcher.RSSEntry)) (keywords : List String)
    (max_results days_back : Nat) (now : Int)
    (h : ∀ kw ∈ keywords, pyStripS kw = "") :
    ArxivRSSSearcher.search_papers unescape strptimeO fetched keywords
        max_results days_back now =
      rss_search_all_in_window unescape strptimeO fetched days_back now := by
  have hfil : keywords.filter (fun kw => kw ≠ "" && pyStripS kw ≠ "") = [] := by
    rw [List.filter_eq_nil_iff]
    intro kw hkw
    simp [h kw hkw]
  have hkn : ArxivRSSSearcher.keywordsNorm keywords = [] := by
    unfold ArxivRSSSearcher.keywordsNorm
    rw [hfil]
    rfl
  cases fetched with
  | none => rfl
  | some entries =>
    simp only [ArxivRSSSearcher.search_papers, rss_search_all_in_window, hkn]
    exact List.take_of_length_le (le_max_left _ _)

/-- C6: Partial-channel delivery and batch continuation — in the per-paper
loop with both channels enabled, when no component call raises, the per-paper
outcome records the email flag and the WeChat flag independently: in
particular an email send returning `False` does not prevent the WeChat send
from being attempted and recorded (`eb` here may be `false` while the WeChat
send still runs and `wb` is recorded); and the loop is compositional, so a
paper whose body raises only contributes its own (caught, logged) entry and
processing proceeds to the next paper. -/
theorem claim6_partial_channel_batch (env : MainTask.MainEnv) (cfg : MainTask.MainCfg)
    (p : Paper) (sp : Option String) (analysis : String) (eb : Bool) (wi : String)
    (wb : Bool)
    (hw : cfg.wechat_enabled = true)
    (h1 : env.process_paper p = .ok sp)
    (h2 : env.analyze_abstract p.abstract = .ok analysis)
    (h3 : (if cfg.send_as_image then env.send_paper_image_email p analysis sp
           else env.send_paper_email p analysis sp) = .ok eb)
    (h4 : MainTask.wechatImagePath env cfg p analysis sp = .ok (some wi))
    (h5 : env.send_paper_image p wi = .ok wb) :
    MainTask.paperBody env cfg p = .ok (eb, wb) ∧
    (∀ (ps₁ ps₂ : List Paper) (q : Paper),
      MainTask.mainLoop env cfg (ps₁ ++ q :: ps₂) =
        MainTask.mainLoop env cfg ps₁ ++
          MainTask.processOne env cfg q :: MainTask.mainLoop env cfg ps₂) := by
  constructor
  · unfold MainTask.paperBody MainTask.wechatBranch
    rw [hw]
    simp only [bind, Except.bind, h1, h2, h4, h5, if_true]
    by_cases hsi : cfg.send_as_image = true
    · rw [if_pos hsi] at h3 ⊢
      rw [h3]
      rfl
    · rw [if_neg hsi] at h3 ⊢
      rw [h3]
      rfl
  · intro ps₁ ps₂ q
    induction ps₁ with
    | nil => rfl
    | cons r rs ih =>
      simp only [List.cons_append, MainTask.mainLoop, List.append_eq, ih]

/-- C7 counterexample: the claim "calling the artifact-fetch operation twice
for the same paper id performs the network fetch at most once — on the second
call the existence check short-circuits" fails on the code when the first
fetch fails: `download_pdf` then leaves no file behind, so the second call
performs a second network fetch (2 fetches, not ≤ 1, and no short-circuit).
The reading "artifact-fetch = `process_paper`" fails even on the success
path: `process_paper` deletes the PDF after a successful screenshot, so a
second call downloads it again (also 2 fetches). -/
theorem claim7_counterexample :
    (PDFProcessor.download_pdf .httpError "./downloads" "2507.12345" []).fetches +
      (PDFProcessor.download_pdf .httpError "./downloads" "2507.12345"
        (PDFProcessor.download_pdf .httpError "./downloads" "2507.12345" []).fs).fetches = 2 ∧
    ¬ ((PDFProcessor.download_pdf .httpError "./downloads" "2507.12345" []).fetches +
      (PDFProcessor.download_pdf .httpError "./downloads" "2507.12345"
        (PDFProcessor.download_pdf .httpError "./downloads" "2507.12345" []).fs).fetches ≤ 1) ∧
    (PDFProcessor.process_paper .ok true "./downloads" "2507.12345" []).fetches +
      (PDFProcessor.process_paper .ok true "./downloads" "2507.12345"
        (PDFProcessor.process_paper .ok true "./downloads" "2507.12345" []).fs).fetches = 2 :=
  ⟨by decide, by decide, by decide⟩

/-- C7 amended: if the first `download_pdf` call returns a path — the file
already existed or the fetch succeeded — then the second call for the same id
short-circuits on the existence check: it performs no network fetch and
returns the same path, and the two calls together perform at most one fetch. -/
theorem claim7_amended (fetch1 fetch2 : PDFProcessor.FetchOutcome)
    (download_dir arxiv_id : String) (fs : List String) (p : String)
    (h : (PDFProcessor.download_pdf fetch1 download_dir arxiv_id fs).path = some p) :
    PDFProcessor.download_pdf fetch2 download_dir arxiv_id
        (PDFProcessor.download_pdf fetch1 download_dir arxiv_id fs).fs =
      ⟨some p, (PDFProcessor.download_pdf fetch1 download_dir arxiv_id fs).fs, 0⟩ ∧
    (PDFProcessor.download_pdf fetch1 download_dir arxiv_id fs).fetches +
      (PDFProcessor.download_pdf fetch2 download_dir arxiv_id
        (PDFProcessor.download_pdf fetch1 download_dir arxiv_id fs).fs).fetches ≤ 1 := by
  by_cases hmem : PDFProcessor.pdfPath download_dir arxiv_id ∈ fs
  · have e1 : PDFProcessor.download_pdf fetch1 download_dir arxiv_id fs =
        ⟨some (PDFProcessor.pdfPath download_dir arxiv_id), fs, 0⟩ := by
      unfold PDFProcessor.download_pdf
      rw [if_pos hmem]
    rw [e1] at h ⊢
    have hp : p = PDFProcessor.pdfPath download_dir arxiv_id :=
      (Option.some_inj.mp h).symm
    subst hp
    have e2 : PDFProcessor.download_pdf fetch2 download_dir arxiv_id fs =
        ⟨some (PDFProcessor.pdfPath download_dir arxiv_id), fs, 0⟩ := by
      unfold PDFProcessor.download_pdf
      rw [if_pos hmem]
    exact ⟨e2, by rw [e2]; simp⟩
  · cases fetch1 with
    | ok =>
      have e1 : PDFProcessor.download_pdf .ok download_dir arxiv_id fs =
          ⟨some (PDFProcessor.pdfPath download_dir arxiv_id),
            PDFProcessor.pdfPath download_dir arxiv_id :: fs, 1⟩ := by
        unfold PDFProcessor.download_pdf
        rw [if_neg hmem]
      rw [e1] at h ⊢
      have hp : p = PDFProcessor.pdfPath download_dir arxiv_id :=
        (Option.some_inj.mp h).symm
      subst hp
      have e2 : PDFProcessor.download_pdf fetch2 download_dir arxiv_id
          (PDFProcessor.pdfPath download_dir arxiv_id :: fs) =
          ⟨some (PDFProcessor.pdfPath download_dir arxiv_id),
            PDFProcessor.pdfPath download_dir arxiv_id :: fs, 0⟩ := by
        unfold PDFProcessor.download_pdf
        rw [if_pos (List.mem_cons_self _ _)]
      exact ⟨e2, by rw [e2]; simp⟩
    | httpError =>
      exfalso
      have e1 : PDFProcessor.download_pdf .httpError download_dir arxiv_id fs =
          ⟨none, fs, 1⟩ := by
        unfold PDFProcessor.download_pdf
        rw [if_neg hmem]
      rw [e1] at h
      cases h
    | streamError =>
      exfalso
      have e1 : PDFProcessor.download_pdf .streamError download_dir arxiv_id fs =
          ⟨none, PDFProcessor.pdfPath download_dir arxiv_id :: fs, 1⟩ := by
        unfold PDFProcessor.download_pdf
        rw [if_neg hmem]
      rw [e1] at h
      cases h

/-- C9 counterexample: an upstream title with three consecutive spaces — the
single `replace('  ', ' ')` pass maps `"a   b"` to `"a  b"`, so the extracted
record's title still contains two consecutive spaces, contradicting the
claim's "no two consecutive space characters" for all upstream strings. -/
theorem claim9_counterexample :
    (ArxivSearcher.extract_paper_info
      { id := some "http://arxiv.org/abs/2507.11111v1",
        title := some "a   b", summary := some "s",
        authors := none, author := none, published := some 0,
        tags := none }).map Paper.title = some "a  b" ∧
    hasDD ("a  b").data = true :=
  ⟨by decide, by decide⟩

/-- C9 amended: for every extracted record of either adapter, title and
abstract contain no embedded newline characters; the no-double-space part
holds only under the precondition that the newline-replaced upstream text
contains no run of three or more spaces — one `replace('  ', ' ')` pass
halves space runs, so longer runs can leave a double space (see the
counterexample). -/
theorem claim9_amended :
    (∀ (e : ArxivSearcher.ApiEntry) (p : Paper),
      ArxivSearcher.extract_paper_info e = some p →
      '\n' ∉ p.title.data ∧ '\n' ∉ p.abstract.data) ∧
    (∀ (ue : String → String) (spo : String → Option Int) (now : Int)
       (e : ArxivRSSSearcher.RSSEntry) (p : Paper),
      ArxivRSSSearcher._extract_paper_info ue spo now e = some p →
      '\n' ∉ p.title.data ∧ '\n' ∉ p.abstract.data) ∧
    (∀ s : String, hasTriple (replaceNL s.data) = false →
      hasDD (normalizeWS s).data = false) := by
  refine ⟨?_, ?_, fun s h => hasDD_normalizeWS h⟩
  · intro e p hx
    unfold ArxivSearcher.extract_paper_info at hx
    rcases he1 : e.id with _ | eid <;>
      rcases he2 : e.title with _ | t <;>
        rcases he3 : e.summary with _ | s <;>
          rcases he4 : e.published with _ | d <;>
            rw [he1, he2, he3, he4] at hx <;>
              dsimp only [] at hx <;>
                (try cases hx) <;>
                  exact ⟨no_newline_normalizeWS _, no_newline_normalizeWS _⟩
  · intro ue spo now e p hx
    unfold ArxivRSSSearcher._extract_paper_info at hx
    rcases hd : ArxivRSSSearcher.rssPublishedDate spo now e with _ | pd <;>
      rw [hd] at hx <;>
        dsimp only [] at hx <;>
          (try cases hx) <;>
            exact ⟨no_newline_normalizeWS _, no_newline_normalizeWS _⟩

/-- A well-formed query-API entry used to exercise the theorems on concrete
input. -/
def apiEntryW : ArxivSearcher.ApiEntry :=
  { id := some "http://arxiv.org/abs/2507.22222v2", title := some "Neural nets",
    summary := some "We study nets", authors := some ["A B"], author := none,
    published := some 1000, tags := some ["cs.LG"] }

/-- The record `extract_paper_info` produces from `apiEntryW`. -/
def paperW : Paper :=
  { arxiv_id := "2507.22222", title := "Neural nets", abstract := "We study nets",
    authors := ["A B"], published_date := 1000, categories := ["cs.LG"],
    arxiv_url := "http://arxiv.org/abs/2507.22222v2",
    pdf_url := "https://arxiv.org/pdf/2507.22222.pdf" }

/-- A query-API entry whose date parse raises, so its extraction fails. -/
def apiEntryBadW : ArxivSearcher.ApiEntry :=
  { id := some "http://arxiv.org/abs/2507.99999v1", title := some "T",
    summary := some "S", authors := none, author := none,
    published := none, tags := none }

/-- A well-formed feed entry used to exercise the theorems on concrete input. -/
def rssEntryW : ArxivRSSSearcher.RSSEntry :=
  { link := some "https://arxiv.org/abs/2507.33333v1", links := [],
    id := none, authors := none, author := some "C D",
    published_parsed := some (some 500), updated_parsed := none,
    published := none, updated := none, tags := none,
    title := some "Robots", summary := some "Abstract: control planning" }

/-- The record `_extract_paper_info` produces from `rssEntryW`. -/
def paperRssW : Paper :=
  { arxiv_id := "2507.33333", title := "Robots", abstract := "control planning",
    authors := ["C D"], published_date := 500, categories := [],
    arxiv_url := "https://arxiv.org/abs/2507.33333v1",
    pdf_url := "https://arxiv.org/pdf/2507.33333.pdf" }

/-- A feed entry whose `published_parsed` tuple makes `datetime(*t)` raise,
so its extraction fails. -/
def rssEntryBadW : ArxivRSSSearcher.RSSEntry :=
  { link := some "https://arxiv.org/abs/2507.44444v1", links := [],
    id := none, authors := none, author := none,
    published_parsed := some none, updated_parsed := none,
    published := none, updated := none, tags := none,
    title := some "T", summary := none }

/-- C3 witness: both step lemmas applied to concrete in-window items. -/
theorem claim3_witness :
    ArxivSearcher.searchStep 0 ⟨[], []⟩ apiEntryW =
      ⟨[] ++ [paperW], paperW.arxiv_id :: []⟩ ∧
    ArxivRSSSearcher.rssStep [] 0
        (ArxivRSSSearcher._extract_paper_info id (fun _ => none) 0) ⟨[], []⟩ rssEntryW =
      ⟨[] ++ [paperRssW], paperRssW.arxiv_id :: []⟩ :=
  ⟨claim3_temporal_post_filter.2.1 0 ⟨[], []⟩ apiEntryW paperW
      (by decide) (by decide) (by decide),
   claim3_temporal_post_filter.2.2.2 [] 0
      (ArxivRSSSearcher._extract_paper_info id (fun _ => none) 0) ⟨[], []⟩
      rssEntryW paperRssW (by decide) (by decide) (by decide) (by decide)⟩

/-- C4 witness: the two per-item isolation parts applied to concrete failing
entries next to healthy siblings. -/
theorem claim4_witness :
    ArxivSearcher.search_papers
        ([] ++ ("k", some ([apiEntryW] ++ apiEntryBadW :: [])) :: []) 5 1 86400 =
      ArxivSearcher.search_papers
        ([] ++ ("k", some ([apiEntryW] ++ [])) :: []) 5 1 86400 ∧
    ArxivRSSSearcher.search_papers id (fun _ => none)
        (some ([] ++ rssEntryBadW :: [rssEntryW])) ["robot"] 5 1 86400 =
      ArxivRSSSearcher.search_papers id (fun _ => none)
        (some ([] ++ [rssEntryW])) ["robot"] 5 1 86400 :=
  ⟨claim4_failure_isolation.2.1 [] [] "k" [apiEntryW] [] apiEntryBadW 5 1 86400
      (by decide),
   claim4_failure_isolation.2.2.2 id (fun _ => none) [] [rssEntryW] rssEntryBadW
      ["robot"] 5 1 86400 (by decide)⟩

/-- C5 witness: a model that raises on every attempt still yields the
(non-empty) fallback analysis. -/
theorem claim5_witness :
    GeminiAnalyzer.analyze_abstract (fun _ => GeminiAnalyzer.GenResult.raises)
        "We train neural networks" "T" 3 =
      GeminiAnalyzer._get_fallback_analysis "We train neural networks" "T" ∧
    GeminiAnalyzer._get_fallback_analysis "We train neural networks" "T" ≠ "" :=
  claim5_retry_then_fallback (fun _ => GeminiAnalyzer.GenResult.raises)
    "We train neural networks" "T" (fun _ _ => Or.inl rfl)

/-- The component oracles used by the C6 witness: the email channel fails
(returns `False`), the WeChat channel succeeds, and processing the paper with
id `"crash"` raises. -/
def mainEnvW : MainTask.MainEnv :=
  { process_paper := fun q => if q.arxiv_id = "crash" then .error () else .ok (some "shot.png"),
    analyze_abstract := fun _ => .ok "analysis",
    send_paper_image_email := fun _ _ _ => .ok false,
    send_paper_email := fun _ _ _ => .ok false,
    generate_paper_image := fun _ _ _ => .ok (some "img.png"),
    generate_simple_text_image := fun _ _ => .ok none,
    send_paper_image := fun _ _ => .ok true }

/-- Both channels enabled, image-format email. -/
def mainCfgW : MainTask.MainCfg := ⟨true, true⟩

/-- A paper whose processing raises under `mainEnvW`. -/
def paperCrashW : Paper :=
  { arxiv_id := "crash", title := "t", abstract := "a", authors := [],
    published_date := 0, categories := [], arxiv_url := "u", pdf_url := "p" }

/-- C6 witness: the per-paper outcome records email `false` alongside WeChat
`true`, and a paper whose body raises contributes only its own `none` entry
while its neighbours are still processed. -/
theorem claim6_witness :
    MainTask.paperBody mainEnvW mainCfgW paperW = .ok (false, true) ∧
    MainTask.mainLoop mainEnvW mainCfgW ([paperW] ++ paperCrashW :: [paperW]) =
      MainTask.mainLoop mainEnvW mainCfgW [paperW] ++
        MainTask.processOne mainEnvW mainCfgW paperCrashW ::
          MainTask.mainLoop mainEnvW mainCfgW [paperW] ∧
    MainTask.processOne mainEnvW mainCfgW paperCrashW = none := by
  have H := claim6_partial_channel_batch mainEnvW mainCfgW paperW (some "shot.png")
    "analysis" false "img.png" true rfl rfl rfl rfl rfl rfl
  exact ⟨H.1, H.2 [paperW] [paperW] paperCrashW, rfl⟩

/-- C7 amended witness: a successful first download followed by a failing
network: the second call still returns the cached path with no fetch. -/
theorem claim7_amended_witness :
    PDFProcessor.download_pdf .httpError "./downloads" "2507.12345"
        (PDFProcessor.download_pdf .ok "./downloads" "2507.12345" []).fs =
      ⟨some "./downloads/2507.12345.pdf",
        (PDFProcessor.download_pdf .ok "./downloads" "2507.12345" []).fs, 0⟩ ∧
    (PDFProcessor.download_pdf .ok "./downloads" "2507.12345" []).fetches +
      (PDFProcessor.download_pdf .httpError "./downloads" "2507.12345"
        (PDFProcessor.download_pdf .ok "./downloads" "2507.12345" []).fs).fetches ≤ 1 :=
  claim7_amended .ok .httpError "./downloads" "2507.12345" []
    "./downloads/2507.12345.pdf" (by decide)

/-- A query-API entry whose title and summary carry embedded newlines and
double spaces. -/
def apiEntryNLW : ArxivSearcher.ApiEntry :=
  { id := some "http://arxiv.org/abs/2507.55555v1", title := some "a\nb  c",
    summary := some "d\ne", authors := none, author := none,
    published := some 7, tags := none }

/-- The record `extract_paper_info` produces from `apiEntryNLW`. -/
def paperNLW : Paper :=
  { arxiv_id := "2507.55555", title := "a b c", abstract := "d e", authors := [],
    published_date := 7, categories := [],
    arxiv_url := "http://arxiv.org/abs/2507.55555v1",
    pdf_url := "https://arxiv.org/pdf/2507.55555.pdf" }

/-- A feed entry whose title and summary carry embedded newlines. -/
def rssEntryNLW : ArxivRSSSearcher.RSSEntry :=
  { link := some "https://arxiv.org/abs/2507.66666v2", links := [],
    id := none, authors := none, author := none,
    published_parsed := some (some 9), updated_parsed := none,
    published := none, updated := none, tags := none,
    title := some "x\ny", summary := some "Abstract: p\nq" }

/-- The record `_extract_paper_info` produces from `rssEntryNLW`. -/
def paperRssNLW : Paper :=
  { arxiv_id := "2507.66666", title := "x y", abstract := "p q", authors := [],
    published_date := 9, categories := [],
    arxiv_url := "https://arxiv.org/abs/2507.66666v2",
    pdf_url := "https://arxiv.org/pdf/2507.66666.pdf" }

/-- C9 amended witness: the three parts applied to concrete newline-carrying
entries and to a string satisfying the no-triple-space precondition. -/
theorem claim9_amended_witness :
    ('\n' ∉ paperNLW.title.data ∧ '\n' ∉ paperNLW.abstract.data) ∧
    ('\n' ∉ paperRssNLW.title.data ∧ '\n' ∉ paperRssNLW.abstract.data) ∧
    hasDD (normalizeWS "x  y").data = false :=
  ⟨claim9_amended.1 apiEntryNLW paperNLW (by decide),
   claim9_amended.2.1 id (fun _ => none) 0 rssEntryNLW paperRssNLW (by decide),
   claim9_amended.2.2 "x  y" (by decide)⟩

/-- C10 witness: whitespace-only keywords yield the full windowed feed
content, which is non-empty here. -/
theorem claim10_witness :
    ArxivRSSSearcher.search_papers id (fun _ => none) (some [rssEntryW])
        ["", "  "] 5 1 0 =
      rss_search_all_in_window id (fun _ => none) (some [rssEntryW]) 1 0 ∧
    rss_search_all_in_window id (fun _ => none) (some [rssEntryW]) 1 0 ≠ [] :=
  ⟨claim10_empty_keywords_disable_filter id (fun _ => none) (some [rssEntryW])
      ["", "  "] 5 1 0 (by decide),
   by decide⟩

